import Mathlib

/-!
Shallow embedding of the dataset transformation and sampling pipeline of
`Models/Seals/dataset/detection.py` (seal-detection CNN application),
together with proofs about the properties claimed of it.

Records are embedded as Lean structures; the image pixel buffer is
abstracted to its dimensions (the only part of it the pipeline under
verification inspects is `size()`), bounding boxes are `(x1, y1, x2, y2)`
quadruples over an exact field (`ℚ` for the deterministic transforms, `ℝ`
for `random_crop_padded`, whose scale computation uses `exp`/`log`/`sqrt`).
Randomness is passed explicitly: every random draw of the Python code
becomes a parameter of the embedded function, so theorems quantify over
all outcomes of the draws.
-/

namespace SealsDetection

/-- The image tensor of a record, abstracted to its dimensions:
`height = image.size(0)`, `width = image.size(1)`. -/
structure Img (α : Type) where
  height : α
  width : α
  deriving DecidableEq

/-- The sparse detection target: `bbox` holds one `(x1, y1, x2, y2)` box per
instance, `label` one integer class per instance (`torch.LongTensor`). -/
structure Target (α : Type) where
  bbox : List (α × α × α × α)
  label : List ℤ
  deriving DecidableEq

/-- An image record flowing through the transform pipeline: `image`, a
`target` sub-record and an `id`, matching the fields the embedded
combinators read and write. -/
structure ImageRecord (α : Type) where
  image : Img α
  target : Target α
  id : String
  deriving DecidableEq

/-- External collaborator `box.transform(bbox, translate, scale)` applied to
one box: each corner point `p` is mapped to `(p + translate) * scale`,
per axis (usage at `random_crop_padded`: `box.transform(bbox, (-x, -y),
(sx, sy))` shifts to the crop origin and then scales). -/
def boxTransform {α : Type} [LinearOrderedField α] (t s : α × α)
    (b : α × α × α × α) : α × α × α × α :=
  ((b.1 + t.1) * s.1, (b.2.1 + t.2) * s.2,
   (b.2.2.1 + t.1) * s.1, (b.2.2.2 + t.2) * s.2)

/-- External collaborator `box.transpose`: swaps the x and y axes of a box. -/
def boxTranspose {α : Type} (b : α × α × α × α) : α × α × α × α :=
  (b.2.1, b.1, b.2.2.2, b.2.2.1)

/-- External collaborator `box.flip_vertical(bbox, height)` on one box:
reflects the y coordinates at the image height. -/
def boxFlipVertical {α : Type} [LinearOrderedField α] (height : α)
    (b : α × α × α × α) : α × α × α × α :=
  (b.1, height - b.2.2.2, b.2.2.1, height - b.2.1)

/-- External collaborator `box.flip_horizontal(bbox, width)` on one box:
reflects the x coordinates at the image width. -/
def boxFlipHorizontal {α : Type} [LinearOrderedField α] (width : α)
    (b : α × α × α × α) : α × α × α × α :=
  (width - b.2.2.1, b.2.1, width - b.1, b.2.2.2)

/-- `scale(scale)` (detection.py lines 51-58): rescales the image by the
given factor (`transforms.resize_scale`) and transforms the bbox with
`box.transform(bbox, (0, 0), (scale, scale))`. -/
def scale {α : Type} [LinearOrderedField α] (c : α) (d : ImageRecord α) :
    ImageRecord α :=
  { d with
    image := ⟨d.image.height * c, d.image.width * c⟩,
    target := { d.target with
      bbox := d.target.bbox.map (boxTransform (0, 0) (c, c)) } }

/-- `resize(size)` (detection.py lines 61-71): reads `h, w, _ =
d.image.size()`, computes `scale = max(size / h, size / w)` and applies
the same image/bbox rescaling as `scale`. -/
def resize {α : Type} [LinearOrderedField α] (size : α) (d : ImageRecord α) :
    ImageRecord α :=
  { d with
    image := ⟨d.image.height * max (size / d.image.height) (size / d.image.width),
              d.image.width * max (size / d.image.height) (size / d.image.width)⟩,
    target := { d.target with
      bbox := d.target.bbox.map
        (boxTransform (0, 0)
          (max (size / d.image.height) (size / d.image.width),
           max (size / d.image.height) (size / d.image.width))) } }

/-- `resize_to(dest_size)` (detection.py lines 99-110): with `(cw, ch) =
dest_size`, scales per axis by `s = (cw / d.image.size(1), ch /
d.image.size(0))`; the image is resized to exactly `dest_size`
(`transforms.resize_to`), the bbox transformed with `box.transform(bbox,
scale=s)` (translation defaulting to zero). -/
def resize_to {α : Type} [LinearOrderedField α] (dest : α × α)
    (d : ImageRecord α) : ImageRecord α :=
  { d with
    image := ⟨dest.2, dest.1⟩,
    target := { d.target with
      bbox := d.target.bbox.map
        (boxTransform (0, 0) (dest.1 / d.image.width, dest.2 / d.image.height)) } }

/-- `random_flips(horizontal, vertical, transposes)` (detection.py lines
78-96). The three `random.uniform(0, 1) > 0.5` draws are passed as the
booleans `coinT`, `coinV`, `coinH`. A transpose swaps the image axes and
applies `box.transpose`; the vertical flip then uses the (possibly
transposed) `image.size(0)`, the horizontal flip `image.size(1)`. -/
def random_flips {α : Type} [LinearOrderedField α]
    (horizontal vertical transposes coinT coinV coinH : Bool)
    (d : ImageRecord α) : ImageRecord α :=
  let p1 : Img α × List (α × α × α × α) :=
    if transposes && coinT then
      (⟨d.image.width, d.image.height⟩, d.target.bbox.map boxTranspose)
    else (d.image, d.target.bbox)
  let p2 : Img α × List (α × α × α × α) :=
    if vertical && coinV then (p1.1, p1.2.map (boxFlipVertical p1.1.height))
    else p1
  let p3 : Img α × List (α × α × α × α) :=
    if horizontal && coinH then (p2.1, p2.2.map (boxFlipHorizontal p2.1.width))
    else p2
  { d with image := p3.1, target := { d.target with bbox := p3.2 } }

/-- `random_log(l, u)` (detection.py lines 74-75): `exp(uniform(log l, log
u))`. The draw of `random.uniform(a, b) = a + (b - a) * random()` is
passed as `r` (the value of `random()`), so `random_log l u r =
exp(log l + r * (log u - log l))`. -/
noncomputable def random_log (l u r : ℝ) : ℝ :=
  Real.exp (Real.log l + r * (Real.log u - Real.log l))

/-- The random draws consumed by one application of `random_crop_padded`:
the `random()` values behind the two `random_log` calls, the crop position
returned by the external `transforms.random_crop_padded`, the
`random.uniform(0, 1)` draw compared against `select_instance`, and the
crop position returned by the external `transforms.random_crop_target`
(which internally consumes the `random.randint` instance choice). -/
structure CropDraws where
  rScale : ℝ
  rAspect : ℝ
  basePosition : ℝ × ℝ
  rSelect : ℝ
  targetPosition : ℝ × ℝ

/-- The per-axis scale `(sx, sy)` computed by `random_crop_padded`
(detection.py lines 123-126): `scale = random_log(*scale_range)`, `aspect
= random_log(*aspect_range)`, `sx = scale * sqrt(aspect)`, `sy = scale /
sqrt(aspect)`. -/
noncomputable def cropScaleXY (scale_range aspect_range : ℝ × ℝ)
    (dr : CropDraws) : ℝ × ℝ :=
  (random_log scale_range.1 scale_range.2 dr.rScale *
     Real.sqrt (random_log aspect_range.1 aspect_range.2 dr.rAspect),
   random_log scale_range.1 scale_range.2 dr.rScale /
     Real.sqrt (random_log aspect_range.1 aspect_range.2 dr.rAspect))

/-- `random_crop_padded(dest_size, scale_range, aspect_range, border_bias,
select_instance)` (detection.py lines 118-153). The crop position `(x, y)`
is the instance-biased one when `random.uniform(0, 1) < select_instance`
and the record has at least one instance, the unbiased one otherwise; the
image is warped to exactly `dest_size` and the bbox transformed with
`box.transform(bbox, (-x, -y), (sx, sy))`. `border_bias` only influences
the externally drawn `basePosition` and so does not appear separately. -/
noncomputable def random_crop_padded (dest_size scale_range aspect_range : ℝ × ℝ)
    (select_instance : ℝ) (dr : CropDraws) (d : ImageRecord ℝ) :
    ImageRecord ℝ :=
  let s := cropScaleXY scale_range aspect_range dr
  let pos :=
    if dr.rSelect < select_instance ∧ 0 < d.target.label.length then
      dr.targetPosition
    else dr.basePosition
  { d with
    image := ⟨dest_size.2, dest_size.1⟩,
    target := { d.target with
      bbox := d.target.bbox.map (boxTransform (-pos.1, -pos.2) (s.1, s.2)) } }

/-- The record produced by `encode_target(encoder)` (detection.py lines
202-214): a fresh struct with fields `image`, `encoding`, `target`,
`lengths`, `id`. -/
structure EncodedRecord (α ε : Type) where
  image : Img α
  encoding : ε
  target : Target α
  lengths : ℕ
  id : String
  deriving DecidableEq

/-- `encode_target(encoder)` (detection.py lines 202-214): calls
`encoder.encode(d.image, d.target)` (the encoder is the opaque external
collaborator, embedded as a function) and returns a struct passing
`image`, `target` and `id` through, with `lengths = len(d.target.label)`. -/
def encode_target {α ε : Type} (encoder : Img α → Target α → ε)
    (d : ImageRecord α) : EncodedRecord α ε :=
  { image := d.image,
    encoding := encoder d.image d.target,
    target := d.target,
    lengths := d.target.label.length,
    id := d.id }

/-! ## Sampling and batch-producer configuration -/

/-- The configuration fields of `args` read by `load_training` and
`sample_training`. `epoch_size` is `None` or a number, as in the Python
code. -/
structure TrainArgs where
  epoch_size : Option ℕ
  image_samples : ℕ
  batch_size : ℕ
  num_workers : ℕ
  deriving DecidableEq

/-- The sampler object handed to the `DataLoader`: `RepeatSampler(n,
len(dataset))`, `RandomSampler(dataset)`, `direct.RandomSampler(images,
n)` or `direct.ListSampler(images)`. -/
inductive SamplerCfg where
  | repeatSampler (n : ℕ) (datasetLen : ℕ)
  | randomSampler (datasetLen : ℕ)
  | directRandomSampler (numImages : ℕ) (n : ℕ)
  | directListSampler (numImages : ℕ)
  deriving DecidableEq

/-- The `DataLoader` configuration assembled by `load_training` /
`sample_training`: batch size, worker count and sampler. -/
structure LoaderCfg where
  batchSize : ℕ
  numWorkers : ℕ
  sampler : SamplerCfg
  deriving DecidableEq

/-- Python's built-in `round` applied to the exact quotient `e / s`
(detection.py line 168 computes `round(args.epoch_size /
args.image_samples)` with float division): nearest integer, ties going to
the even neighbour. -/
def pyRound (e s : ℕ) : ℕ :=
  if 2 * (e % s) < s then e / s
  else if s < 2 * (e % s) then e / s + 1
  else if e / s % 2 = 0 then e / s else e / s + 1

/-- Whether an `Except` result is a success (the call returned without
raising). -/
def exceptOk {ε β : Type} : Except ε β → Bool
  | Except.ok _ => true
  | Except.error _ => false

/-- `load_training(args, dataset)` (detection.py lines 167-176): computes
`n = round(args.epoch_size / args.image_samples)` eagerly (a `TypeError`
if `epoch_size` is `None`, a `ZeroDivisionError` if `image_samples` is 0)
and builds a `DataLoader` with `batch_size = args.batch_size` and a
`RepeatSampler(n, len(dataset))` when `args.epoch_size` is truthy (not
`None` and nonzero), else a `RandomSampler`. No assertion is made. -/
def load_training (args : TrainArgs) (datasetLen : ℕ) :
    Except String LoaderCfg :=
  match args.epoch_size with
  | none => Except.error "TypeError: unsupported operand for None / int"
  | some e =>
      if args.image_samples = 0 then Except.error "ZeroDivisionError"
      else
        Except.ok
          { batchSize := args.batch_size,
            numWorkers := args.num_workers,
            sampler :=
              if e ≠ 0 then
                SamplerCfg.repeatSampler (pyRound e args.image_samples) datasetLen
              else SamplerCfg.randomSampler datasetLen }

/-- `DetectionDataset.train` (detection.py lines 354-358): wraps the train
images in a `FlatList` and delegates batch production to `load_training`;
the loader configuration is exactly the one `load_training` builds. -/
def dataset_train (args : TrainArgs) (trainImageCount : ℕ) :
    Except String LoaderCfg :=
  load_training args trainImageCount

/-- `sample_training(args, images, loader, transform)` (detection.py lines
179-194): asserts `args.epoch_size is None or args.epoch_size > 0`, then
asserts `args.batch_size % args.image_samples == 0` (the `%` raising
`ZeroDivisionError` first when `image_samples` is 0), and builds a
`DataLoader` with `batch_size = args.batch_size // args.image_samples`
and a `direct.RandomSampler(images, args.epoch_size //
args.image_samples)` when `epoch_size` is not `None`, else a
`direct.ListSampler(images)`. -/
def sample_training (args : TrainArgs) (numImages : ℕ) :
    Except String LoaderCfg :=
  if ¬ (args.epoch_size = none ∨ 0 < args.epoch_size.getD 0) then
    Except.error "assertion failed: epoch_size"
  else if args.image_samples = 0 then Except.error "ZeroDivisionError"
  else if args.batch_size % args.image_samples ≠ 0 then
    Except.error "batch_size should be a multiple of image_samples"
  else
    Except.ok
      { batchSize := args.batch_size / args.image_samples,
        numWorkers := args.num_workers,
        sampler :=
          match args.epoch_size with
          | some e => SamplerCfg.directRandomSampler numImages (e / args.image_samples)
          | none => SamplerCfg.directListSampler numImages }

/-- The number of base images drawn per epoch by the sampler of a loader
configuration (`RepeatSampler`'s or `direct.RandomSampler`'s draw count),
`none` when construction failed or the sampler is unbounded. -/
def samplerDraws : Except String LoaderCfg → Option ℕ
  | Except.ok cfg =>
      match cfg.sampler with
      | SamplerCfg.repeatSampler n _ => some n
      | SamplerCfg.directRandomSampler _ n => some n
      | _ => none
  | Except.error _ => none

/-! ## DetectionDataset: mark_evalated and add_noise -/

/-- A stored image of the dataset's `images` mapping, reduced to the
fields `mark_evalated` and `add_noise` interact with: its role tag and
the `evaluated` marker (`none` until a net id is recorded). -/
structure StoredImage where
  category : String
  evaluated : Option ℤ
  deriving DecidableEq

/-- The dataset's `images` mapping (image id to record), embedded as an
association list with unique keys looked up by `List.lookup`. -/
abbrev ImageMap := List (String × StoredImage)

/-- Dictionary access `self.images[k]`: the record stored under the first
(unique) occurrence of key `k`, `none` when the key is absent. -/
def lookupImage : ImageMap → String → Option StoredImage
  | [], _ => none
  | kv :: t, k => if kv.1 = k then some kv.2 else lookupImage t k

/-- Membership test `k in self.images`. -/
def hasKey (m : ImageMap) (k : String) : Bool :=
  (lookupImage m k).isSome

/-- The in-place mutation `self.images[k].evaluated = net_id`: every entry
stored under key `k` gets its `evaluated` field set to `net_id`. -/
def setEvaluated (m : ImageMap) (k : String) (nid : ℤ) : ImageMap :=
  m.map fun kv =>
    if kv.1 = k then (kv.1, { kv.2 with evaluated := some nid }) else kv

/-- `DetectionDataset.mark_evalated(files, net_id)` (detection.py lines
317-320): iterates over `files` in order; for each id it first asserts
`k in self.images` and then sets that image's `evaluated` field to
`net_id`. Returns the `images` mapping at exit (normal or assertion
failure) together with the outcome; on failure the mutations already
performed are kept. -/
def mark_evalated (m : ImageMap) (files : List String) (nid : ℤ) :
    ImageMap × Except String Unit :=
  match files with
  | [] => (m, Except.ok ())
  | k :: rest =>
      if hasKey m k then mark_evalated (setEvaluated m k nid) rest nid
      else (m, Except.error ("mark_evaluated, invalid file: " ++ k))

/-- An image as seen by `add_noise`: its role tag and its target (the
instance count `image.target._size` is the length of `target.label`). -/
structure NoisyImage where
  category : String
  target : Target ℚ
  deriving DecidableEq

/-- The `totals` accumulator of `DetectionDataset.add_noise` (detection.py
lines 392-414): starting from `struct(iou=0, n=0)`, each image whose
`category == 'train'` contributes `iou =
box.iou_matrix_matched(noisy, image.target.bbox).sum()` (the external IoU
computation, abstracted as `iouOf`) and `n = image.target._size`; other
images contribute nothing. -/
def addNoiseTotals (iouOf : NoisyImage → ℚ) (imgs : List NoisyImage) :
    ℚ × ℕ :=
  imgs.foldl
    (fun t im =>
      if im.category = "train" then (t.1 + iouOf im, t.2 + im.target.label.length)
      else t)
    (0, 0)

/-- The value printed by `add_noise` (detection.py line 416):
`totals.iou / totals.n`, computed unconditionally — there is no guard on
`totals.n`. -/
def addNoiseMeanIou (iouOf : NoisyImage → ℚ) (imgs : List NoisyImage) : ℚ :=
  (addNoiseTotals iouOf imgs).1 / (((addNoiseTotals iouOf imgs).2 : ℕ) : ℚ)

/-- Total number of instances contributed by the images tagged `train`. -/
def trainInstanceTotal (imgs : List NoisyImage) : ℕ :=
  ((imgs.filter fun im => im.category = "train").map
    fun im => im.target.label.length).sum

/-- The bbox/label instance-count invariant of a record: `target.bbox` and
`target.label` have the same length. -/
def targetCountOk {α : Type} (d : ImageRecord α) : Prop :=
  d.target.bbox.length = d.target.label.length

/-! ## Lemmas about mark_evalated -/

/-- Looking a key up after `setEvaluated`: the stored record is the old one,
updated exactly when the looked-up key is the written one. -/
theorem lookup_setEvaluated (m : ImageMap) (k q : String) (nid : ℤ) :
    lookupImage (setEvaluated m q nid) k =
      (lookupImage m k).map
        (fun im => if k = q then { im with evaluated := some nid } else im) := by
  induction m with
  | nil => rfl
  | cons kv t ih =>
      obtain ⟨k0, v0⟩ := kv
      by_cases hq : k0 = q
      · subst hq
        by_cases hk : k0 = k
        · subst hk
          simp [setEvaluated, lookupImage]
        · simpa [setEvaluated, lookupImage, hk] using ih
      · by_cases hk : k0 = k
        · subst hk
          simp [setEvaluated, lookupImage, hq]
        · simpa [setEvaluated, lookupImage, hq, hk] using ih

/-- `setEvaluated` does not change the key set of the mapping. -/
theorem hasKey_setEvaluated (m : ImageMap) (k q : String) (nid : ℤ) :
    hasKey (setEvaluated m q nid) k = hasKey m k := by
  simp [hasKey, lookup_setEvaluated]

/-- Once a key is marked with `net_id`, the rest of the `mark_evalated`
loop keeps it marked (every later write stores the same `net_id`). -/
theorem mark_evalated_keeps_marked (files : List String) :
    ∀ (m : ImageMap) (nid : ℤ) (k : String),
      (∃ im, lookupImage m k = some im ∧ im.evaluated = some nid) →
      ∃ im, lookupImage (mark_evalated m files nid).1 k = some im ∧
        im.evaluated = some nid := by
  induction files with
  | nil => intro m nid k h; simpa [mark_evalated] using h
  | cons f rest ih =>
      intro m nid k h
      by_cases hf : hasKey m f
      · simp only [mark_evalated, hf, if_true]
        apply ih
        obtain ⟨im, hlk, hev⟩ := h
        by_cases hkf : k = f
        · exact ⟨{ im with evaluated := some nid }, by
            rw [lookup_setEvaluated, hlk]; simp [hkf], rfl⟩
        · exact ⟨im, by rw [lookup_setEvaluated, hlk]; simp [hkf], hev⟩
      · simpa [mark_evalated, hf] using h

/-- The `mark_evalated` loop raises its assertion exactly when some id in
`files` is not a key of the mapping. -/
theorem mark_evalated_error_aux (files : List String) :
    ∀ (m : ImageMap) (nid : ℤ),
      exceptOk (mark_evalated m files nid).2 = false ↔
        ∃ k ∈ files, hasKey m k = false := by
  induction files with
  | nil => intro m nid; simp [mark_evalated, exceptOk]
  | cons f rest ih =>
      intro m nid
      by_cases hf : hasKey m f
      · simp only [mark_evalated, hf, if_true]
        rw [ih]
        constructor
        · rintro ⟨k, hk, hmiss⟩
          exact ⟨k, by simp [hk], by rwa [hasKey_setEvaluated] at hmiss⟩
        · rintro ⟨k, hk, hmiss⟩
          rcases List.mem_cons.mp hk with hkf | hkrest
          · subst hkf; rw [hf] at hmiss; cases hmiss
          · exact ⟨k, hkrest, by rwa [hasKey_setEvaluated]⟩
      · simp only [mark_evalated, hf, if_false, exceptOk]
        constructor
        · intro _
          exact ⟨f, by simp, by simpa using hf⟩
        · intro _; rfl

/-- Partial-mutation shape of the `mark_evalated` loop: if every id of
`pre` is present and `bad` is not, the loop fails at `bad` having already
written `net_id` into every image named by `pre`, without rollback. -/
theorem mark_evalated_partial_aux (pre : List String) :
    ∀ (m : ImageMap) (rest : List String) (bad : String) (nid : ℤ),
      (∀ k ∈ pre, hasKey m k = true) → hasKey m bad = false →
      exceptOk (mark_evalated m (pre ++ bad :: rest) nid).2 = false ∧
      ∀ k ∈ pre, ∃ im,
        lookupImage (mark_evalated m (pre ++ bad :: rest) nid).1 k = some im ∧
        im.evaluated = some nid := by
  induction pre with
  | nil =>
      intro m rest bad nid _ hbad
      simp [mark_evalated, hbad, exceptOk]
  | cons p pre ih =>
      intro m rest bad nid hpre hbad
      have hp : hasKey m p = true := hpre p (by simp)
      simp only [List.cons_append, mark_evalated, hp, if_true]
      have hpre2 : ∀ k ∈ pre, hasKey (setEvaluated m p nid) k = true := by
        intro k hk
        rw [hasKey_setEvaluated]
        exact hpre k (by simp [hk])
      have hbad2 : hasKey (setEvaluated m p nid) bad = false := by
        rw [hasKey_setEvaluated]; exact hbad
      obtain ⟨herr, hmarked⟩ := ih (setEvaluated m p nid) rest bad nid hpre2 hbad2
      refine ⟨herr, ?_⟩
      intro k hk
      rcases List.mem_cons.mp hk with hkp | hkpre
      · subst hkp
        apply mark_evalated_keeps_marked
        obtain ⟨im, him⟩ := Option.isSome_iff_exists.mp (by simpa [hasKey] using hp)
        exact ⟨{ im with evaluated := some nid }, by
          rw [lookup_setEvaluated, him]; simp, rfl⟩
      · exact hmarked k hkpre

/-! ## Arithmetic and accumulator lemmas -/

/-- For positive arguments, `max (s / h) (s / w)` — the factor `resize`
computes — equals `s` divided by the smaller of the two dimensions. -/
theorem max_div_eq_div_min (s h w : ℚ) (hh : 0 < h) (hw : 0 < w) (hs : 0 < s) :
    max (s / h) (s / w) = s / min h w := by
  rcases le_total h w with hle | hle
  · rw [min_eq_left hle, max_eq_left ((div_le_div_iff_of_pos_left hs hw hh).mpr hle)]
  · rw [min_eq_right hle, max_eq_right ((div_le_div_iff_of_pos_left hs hh hw).mpr hle)]

/-- When `s` divides `e`, Python's `round(e / s)` is exactly the integer
quotient. -/
theorem pyRound_of_dvd (e s : ℕ) (hs : 0 < s) (h : s ∣ e) :
    pyRound e s = e / s := by
  have hr : e % s = 0 := Nat.mod_eq_zero_of_dvd h
  simp [pyRound, hr, hs]

/-- Unfolding `trainInstanceTotal` over the head image. -/
theorem trainInstanceTotal_cons (im : NoisyImage) (rest : List NoisyImage) :
    trainInstanceTotal (im :: rest) =
      (if im.category = "train" then im.target.label.length else 0) +
        trainInstanceTotal rest := by
  by_cases hc : im.category = "train" <;>
    simp [trainInstanceTotal, List.filter_cons, hc]

/-- The instance counter accumulated by `add_noise` equals the total number
of instances of the train-tagged images. -/
theorem addNoiseTotals_snd (iouOf : NoisyImage → ℚ) (imgs : List NoisyImage) :
    (addNoiseTotals iouOf imgs).2 = trainInstanceTotal imgs := by
  suffices h : ∀ acc : ℚ × ℕ,
      (imgs.foldl
        (fun t im =>
          if im.category = "train" then (t.1 + iouOf im, t.2 + im.target.label.length)
          else t)
        acc).2 = acc.2 + trainInstanceTotal imgs by
    simpa [addNoiseTotals] using h (0, 0)
  induction imgs with
  | nil => intro acc; simp [trainInstanceTotal]
  | cons im rest ih =>
      intro acc
      by_cases hc : im.category = "train" <;>
        simp [List.foldl_cons, hc, ih, trainInstanceTotal_cons, Nat.add_assoc]

/-! ## Claim theorems -/

/-- Claim C1, counterexample: on a 2×4 image (height 2, width 4) with one
unit box, `resize 8` does not rescale the bbox by the claimed factor
`8 / max 2 4 = 2`; the code applies `max (8/2) (8/4) = 4` instead. -/
theorem C1_resize_max_dim_factor_cex :
    (resize (8 : ℚ) ⟨⟨2, 4⟩, ⟨[(1, 1, 2, 2)], [0]⟩, "a"⟩).target.bbox ≠
      (⟨⟨2, 4⟩, ⟨[(1, 1, 2, 2)], [0]⟩, "a"⟩ : ImageRecord ℚ).target.bbox.map
        (boxTransform (0, 0) ((8 : ℚ) / max 2 4, (8 : ℚ) / max 2 4)) := by
  simp only [resize, boxTransform, List.map_cons, List.map_nil, ne_eq,
    List.cons.injEq, Prod.mk.injEq, and_true, not_and]
  norm_num

/-- Claim C1, amended: `resize size` rescales image and bbox uniformly by
`size / min h w` (equivalently `max (size/h) (size/w)`) — the factor that
makes the smaller image dimension equal `size` — not `size / max h w`. -/
theorem C1_resize_min_dim_factor (size : ℚ) (d : ImageRecord ℚ)
    (hh : 0 < d.image.height) (hw : 0 < d.image.width) (hs : 0 < size) :
    resize size d = scale (size / min d.image.height d.image.width) d := by
  have key := max_div_eq_div_min size d.image.height d.image.width hh hw hs
  simp only [resize, scale]
  rw [key]

/-- Witness for the amended C1 at a concrete record. -/
theorem C1_resize_min_dim_factor_witness :
    (0 : ℚ) < (⟨⟨2, 4⟩, ⟨[(1, 1, 2, 2)], [0]⟩, "a"⟩ : ImageRecord ℚ).image.height ∧
    (0 : ℚ) < (⟨⟨2, 4⟩, ⟨[(1, 1, 2, 2)], [0]⟩, "a"⟩ : ImageRecord ℚ).image.width ∧
    (0 : ℚ) < 8 ∧
    resize (8 : ℚ) ⟨⟨2, 4⟩, ⟨[(1, 1, 2, 2)], [0]⟩, "a"⟩ =
      scale ((8 : ℚ) /
          min (⟨⟨2, 4⟩, ⟨[(1, 1, 2, 2)], [0]⟩, "a"⟩ : ImageRecord ℚ).image.height
            (⟨⟨2, 4⟩, ⟨[(1, 1, 2, 2)], [0]⟩, "a"⟩ : ImageRecord ℚ).image.width)
        ⟨⟨2, 4⟩, ⟨[(1, 1, 2, 2)], [0]⟩, "a"⟩ :=
  ⟨by decide, by decide, by decide,
    C1_resize_min_dim_factor 8 ⟨⟨2, 4⟩, ⟨[(1, 1, 2, 2)], [0]⟩, "a"⟩
      (by decide) (by decide) (by decide)⟩

/-- Claim C2, counterexample: with `batch_size = 3`, `image_samples = 2`
(`3 % 2 ≠ 0`) and `epoch_size = 10`, the `DetectionDataset.train` path
(`load_training`) builds its batch producer with no assertion failing —
the divisibility validation exists only on the `sample_training` path. -/
theorem C2_load_training_no_validation_cex :
    (⟨some 10, 2, 3, 0⟩ : TrainArgs).batch_size %
        (⟨some 10, 2, 3, 0⟩ : TrainArgs).image_samples ≠ 0 ∧
      exceptOk (dataset_train ⟨some 10, 2, 3, 0⟩ 5) = true := by
  decide

/-- Claim C2, amended: the `batch_size % image_samples == 0` contract is
validated eagerly only on the `sample_training` path — under a well-formed
`epoch_size` and nonzero `image_samples`, `sample_training` fails exactly
when the divisibility is violated, while `load_training` (the
`DetectionDataset.train` path) performs no such validation and builds its
producer regardless. -/
theorem C2_only_sample_training_validates (args : TrainArgs)
    (numImages datasetLen e : ℕ) (hE : args.epoch_size = some e)
    (hEpos : 0 < e) (hS : 0 < args.image_samples) :
    (exceptOk (sample_training args numImages) = false ↔
      args.batch_size % args.image_samples ≠ 0) ∧
    exceptOk (dataset_train args datasetLen) = true := by
  have hS0 : args.image_samples ≠ 0 := Nat.pos_iff_ne_zero.mp hS
  constructor
  · by_cases hdiv : args.batch_size % args.image_samples = 0 <;>
      simp [sample_training, hE, hEpos, hS0, hdiv, exceptOk]
  · simp [dataset_train, load_training, hE, hS0, exceptOk]

/-- Witness for the amended C2 at a concrete configuration. -/
theorem C2_only_sample_training_validates_witness :
    (⟨some 10, 2, 6, 0⟩ : TrainArgs).epoch_size = some 10 ∧ 0 < 10 ∧
      0 < (⟨some 10, 2, 6, 0⟩ : TrainArgs).image_samples ∧
      ((exceptOk (sample_training ⟨some 10, 2, 6, 0⟩ 4) = false ↔
          (⟨some 10, 2, 6, 0⟩ : TrainArgs).batch_size %
            (⟨some 10, 2, 6, 0⟩ : TrainArgs).image_samples ≠ 0) ∧
        exceptOk (dataset_train ⟨some 10, 2, 6, 0⟩ 7) = true) :=
  ⟨rfl, by decide, by decide,
    C2_only_sample_training_validates ⟨some 10, 2, 6, 0⟩ 4 7 10 rfl
      (by decide) (by decide)⟩

/-- Claim C3, counterexample: with `epoch_size = 3` and `image_samples = 2`
(both positive), `load_training` draws `round(3 / 2) = 2` base images per
epoch while `sample_training` draws `3 // 2 = 1` — the two code paths do
not draw the same quantity. -/
theorem C3_epoch_draws_differ_cex :
    samplerDraws (load_training ⟨some 3, 2, 4, 0⟩ 10) = some 2 ∧
      samplerDraws (sample_training ⟨some 3, 2, 4, 0⟩ 10) = some 1 := by
  decide

/-- Claim C3, amended: `load_training` draws `round(epoch_size /
image_samples)` (nearest, ties to even) and `sample_training` draws
`epoch_size // image_samples` (floor); the two agree — both equal to the
integer quotient `epoch_size / image_samples` — whenever `image_samples`
divides `epoch_size`, but can differ otherwise. -/
theorem C3_epoch_draws_agree_when_divisible (args : TrainArgs)
    (numImages datasetLen e : ℕ) (hE : args.epoch_size = some e)
    (hEpos : 0 < e) (hS : 0 < args.image_samples)
    (hdvd : args.image_samples ∣ e)
    (hB : args.batch_size % args.image_samples = 0) :
    samplerDraws (load_training args datasetLen) =
        some (e / args.image_samples) ∧
      samplerDraws (sample_training args numImages) =
        some (e / args.image_samples) := by
  have hS0 : args.image_samples ≠ 0 := Nat.pos_iff_ne_zero.mp hS
  have hE0 : e ≠ 0 := Nat.pos_iff_ne_zero.mp hEpos
  constructor
  · simp [load_training, hE, hS0, hE0, samplerDraws,
      pyRound_of_dvd e args.image_samples hS hdvd]
  · simp [sample_training, hE, hEpos, hS0, hB, samplerDraws]

/-- Witness for the amended C3 at a concrete configuration. -/
theorem C3_epoch_draws_agree_when_divisible_witness :
    (⟨some 10, 2, 6, 0⟩ : TrainArgs).epoch_size = some 10 ∧ 0 < 10 ∧
      0 < (⟨some 10, 2, 6, 0⟩ : TrainArgs).image_samples ∧
      (⟨some 10, 2, 6, 0⟩ : TrainArgs).image_samples ∣ 10 ∧
      (⟨some 10, 2, 6, 0⟩ : TrainArgs).batch_size %
        (⟨some 10, 2, 6, 0⟩ : TrainArgs).image_samples = 0 ∧
      (samplerDraws (load_training ⟨some 10, 2, 6, 0⟩ 9) =
          some (10 / (⟨some 10, 2, 6, 0⟩ : TrainArgs).image_samples) ∧
        samplerDraws (sample_training ⟨some 10, 2, 6, 0⟩ 4) =
          some (10 / (⟨some 10, 2, 6, 0⟩ : TrainArgs).image_samples)) :=
  ⟨rfl, by decide, by decide, by decide, by decide,
    C3_epoch_draws_agree_when_divisible ⟨some 10, 2, 6, 0⟩ 4 9 10 rfl
      (by decide) (by decide) (by decide) (by decide)⟩

/-- Claim C4: when the images tagged `train` contribute zero instances in
total, `add_noise`'s accumulated instance counter is zero, so the mean-IoU
report divides the accumulated IoU by an instance count of zero — the
division is unguarded and this branch is reachable. -/
theorem C4_add_noise_zero_divisor (iouOf : NoisyImage → ℚ)
    (imgs : List NoisyImage) (h : trainInstanceTotal imgs = 0) :
    (addNoiseTotals iouOf imgs).2 = 0 ∧
      addNoiseMeanIou iouOf imgs =
        (addNoiseTotals iouOf imgs).1 / (((0 : ℕ) : ℚ)) := by
  have h2 : (addNoiseTotals iouOf imgs).2 = 0 := by
    rw [addNoiseTotals_snd]; exact h
  exact ⟨h2, by rw [addNoiseMeanIou, h2]⟩

/-- Witness for C4 at a concrete dataset with one test-tagged image of two
instances and no train instances. -/
theorem C4_add_noise_zero_divisor_witness :
    trainInstanceTotal [⟨"test", ⟨[((0 : ℚ), 0, 1, 1), (1, 1, 2, 2)], [0, 1]⟩⟩] = 0 ∧
      ((addNoiseTotals (fun _ => 1)
          [⟨"test", ⟨[((0 : ℚ), 0, 1, 1), (1, 1, 2, 2)], [0, 1]⟩⟩]).2 = 0 ∧
        addNoiseMeanIou (fun _ => 1)
            [⟨"test", ⟨[((0 : ℚ), 0, 1, 1), (1, 1, 2, 2)], [0, 1]⟩⟩] =
          (addNoiseTotals (fun _ => 1)
              [⟨"test", ⟨[((0 : ℚ), 0, 1, 1), (1, 1, 2, 2)], [0, 1]⟩⟩]).1 /
            (((0 : ℕ) : ℚ))) :=
  ⟨by decide,
    C4_add_noise_zero_divisor (fun _ => 1)
      [⟨"test", ⟨[((0 : ℚ), 0, 1, 1), (1, 1, 2, 2)], [0, 1]⟩⟩] (by decide)⟩

/-- Claim C5: with `scale_range = (1, 1)` and `aspect_range = (1, 1)` the
per-axis scale `(sx, sy)` computed by `random_crop_padded` is exactly
`(1, 1)`, and the produced transform is insensitive to the scale and
aspect draws: any two outcomes of those draws yield the same record. -/
theorem C5_unit_ranges_deterministic_scale (dest : ℝ × ℝ) (sel : ℝ)
    (dr : CropDraws) (r1 r2 : ℝ) (d : ImageRecord ℝ) :
    cropScaleXY (1, 1) (1, 1) dr = (1, 1) ∧
      random_crop_padded dest (1, 1) (1, 1) sel dr d =
        random_crop_padded dest (1, 1) (1, 1) sel
          { dr with rScale := r1, rAspect := r2 } d := by
  have hone : ∀ r : ℝ, random_log 1 1 r = 1 := by
    intro r; simp [random_log]
  have hscale : ∀ dr0 : CropDraws, cropScaleXY (1, 1) (1, 1) dr0 = (1, 1) := by
    intro dr0; simp [cropScaleXY, hone]
  refine ⟨hscale dr, ?_⟩
  simp only [random_crop_padded, hscale]

/-- Claim C6: each geometric transform (`scale`, `resize`, `resize_to`,
`random_flips`, `random_crop_padded`) preserves the invariant that
`target.bbox` and `target.label` have the same instance count, for every
outcome of the random draws. -/
theorem C6_geometric_transforms_preserve_count (c sz : ℚ) (dest : ℚ × ℚ)
    (hz vt tp coinT coinV coinH : Bool) (d : ImageRecord ℚ)
    (destR srR arR : ℝ × ℝ) (sel : ℝ) (dr : CropDraws) (e : ImageRecord ℝ)
    (hd : targetCountOk d) (he : targetCountOk e) :
    targetCountOk (scale c d) ∧ targetCountOk (resize sz d) ∧
      targetCountOk (resize_to dest d) ∧
      targetCountOk (random_flips hz vt tp coinT coinV coinH d) ∧
      targetCountOk (random_crop_padded destR srR arR sel dr e) := by
  refine ⟨?_, ?_, ?_, ?_, ?_⟩
  · simpa [targetCountOk, scale] using hd
  · simpa [targetCountOk, resize] using hd
  · simpa [targetCountOk, resize_to] using hd
  · simp only [targetCountOk, random_flips] at hd ⊢
    split <;> split <;> split <;> simpa using hd
  · simpa [targetCountOk, random_crop_padded] using he

/-- Witness for C6 at concrete records, transforms and draws. -/
theorem C6_geometric_transforms_preserve_count_witness :
    targetCountOk (⟨⟨2, 3⟩, ⟨[((0 : ℚ), 0, 1, 1)], [5]⟩, "q"⟩ : ImageRecord ℚ) ∧
      targetCountOk (⟨⟨2, 3⟩, ⟨[((0 : ℝ), 0, 1, 1)], [5]⟩, "r"⟩ : ImageRecord ℝ) ∧
      (targetCountOk (scale (2 : ℚ) ⟨⟨2, 3⟩, ⟨[((0 : ℚ), 0, 1, 1)], [5]⟩, "q"⟩) ∧
        targetCountOk (resize (8 : ℚ) ⟨⟨2, 3⟩, ⟨[((0 : ℚ), 0, 1, 1)], [5]⟩, "q"⟩) ∧
        targetCountOk (resize_to ((4 : ℚ), (5 : ℚ))
          ⟨⟨2, 3⟩, ⟨[((0 : ℚ), 0, 1, 1)], [5]⟩, "q"⟩) ∧
        targetCountOk (random_flips true true true true false true
          ⟨⟨2, 3⟩, ⟨[((0 : ℚ), 0, 1, 1)], [5]⟩, "q"⟩) ∧
        targetCountOk (random_crop_padded ((4 : ℝ), (3 : ℝ)) (1, 2) (1, 1)
          (1 / 2) ⟨0, 0, (0, 0), 0, (0, 0)⟩
          ⟨⟨2, 3⟩, ⟨[((0 : ℝ), 0, 1, 1)], [5]⟩, "r"⟩)) :=
  ⟨rfl, rfl,
    C6_geometric_transforms_preserve_count 2 8 (4, 5) true true true true
      false true ⟨⟨2, 3⟩, ⟨[((0 : ℚ), 0, 1, 1)], [5]⟩, "q"⟩ (4, 3) (1, 2)
      (1, 1) (1 / 2) ⟨0, 0, (0, 0), 0, (0, 0)⟩
      ⟨⟨2, 3⟩, ⟨[((0 : ℝ), 0, 1, 1)], [5]⟩, "r"⟩ rfl rfl⟩

/-- Claim C7: `mark_evalated(files, net_id)` raises its precondition
assertion if and only if some id in `files` is not a key of the images
mapping; in particular `mark_evalated(['A'], net_id=7)` on a dataset
without key `'A'` raises it. -/
theorem C7_mark_evalated_error_iff :
    (∀ (m : ImageMap) (files : List String) (nid : ℤ),
      exceptOk (mark_evalated m files nid).2 = false ↔
        ∃ k ∈ files, hasKey m k = false) ∧
    exceptOk
        (mark_evalated ([("B", ⟨"test", none⟩)] : ImageMap) ["A"] 7).2 =
      false :=
  ⟨fun m files nid => mark_evalated_error_aux files m nid, by decide⟩

/-- Claim C8: applying `resize_to (W, H)` and then `resize_to (orig_w,
orig_h)` restores the bbox coordinates exactly (exact field
arithmetic). -/
theorem C8_resize_to_roundtrip (d : ImageRecord ℚ) (W H : ℚ)
    (hw : d.image.width ≠ 0) (hh : d.image.height ≠ 0)
    (hW : 0 < W) (hH : 0 < H) :
    (resize_to (d.image.width, d.image.height)
        (resize_to (W, H) d)).target.bbox = d.target.bbox := by
  have hW0 : W ≠ 0 := ne_of_gt hW
  have hH0 : H ≠ 0 := ne_of_gt hH
  simp only [resize_to, List.map_map]
  have hpt : ∀ b : ℚ × ℚ × ℚ × ℚ,
      (boxTransform (0, 0) (d.image.width / W, d.image.height / H) ∘
        boxTransform (0, 0) (W / d.image.width, H / d.image.height)) b = b := by
    intro b
    obtain ⟨x1, y1, x2, y2⟩ := b
    simp only [boxTransform, Function.comp_apply, add_zero, Prod.mk.injEq]
    refine ⟨?_, ?_, ?_, ?_⟩ <;> field_simp
  rw [List.map_congr_left fun b _ => hpt b]
  simp

/-- Witness for C8 at a concrete record and destination size. -/
theorem C8_resize_to_roundtrip_witness :
    (⟨⟨3, 4⟩, ⟨[((1 : ℚ), 2, 3, 4)], [0]⟩, "w"⟩ : ImageRecord ℚ).image.width ≠ 0 ∧
    (⟨⟨3, 4⟩, ⟨[((1 : ℚ), 2, 3, 4)], [0]⟩, "w"⟩ : ImageRecord ℚ).image.height ≠ 0 ∧
    (0 : ℚ) < 10 ∧ (0 : ℚ) < 5 ∧
    (resize_to
        ((⟨⟨3, 4⟩, ⟨[((1 : ℚ), 2, 3, 4)], [0]⟩, "w"⟩ : ImageRecord ℚ).image.width,
         (⟨⟨3, 4⟩, ⟨[((1 : ℚ), 2, 3, 4)], [0]⟩, "w"⟩ : ImageRecord ℚ).image.height)
        (resize_to ((10 : ℚ), (5 : ℚ))
          ⟨⟨3, 4⟩, ⟨[((1 : ℚ), 2, 3, 4)], [0]⟩, "w"⟩)).target.bbox =
      (⟨⟨3, 4⟩, ⟨[((1 : ℚ), 2, 3, 4)], [0]⟩, "w"⟩ : ImageRecord ℚ).target.bbox :=
  ⟨by decide, by decide, by decide, by decide,
    C8_resize_to_roundtrip ⟨⟨3, 4⟩, ⟨[((1 : ℚ), 2, 3, 4)], [0]⟩, "w"⟩ 10 5
      (by decide) (by decide) (by decide) (by decide)⟩

/-- Claim C9: `encode_target(encoder)` passes `image`, `target` and `id`
through unchanged and sets `lengths` to the instance count
`len(d.target.label)`; only `encoding` is newly computed, by the
encoder. -/
theorem C9_encode_target_frame {α ε : Type} (encoder : Img α → Target α → ε)
    (d : ImageRecord α) :
    (encode_target encoder d).image = d.image ∧
      (encode_target encoder d).target = d.target ∧
      (encode_target encoder d).id = d.id ∧
      (encode_target encoder d).lengths = d.target.label.length ∧
      (encode_target encoder d).encoding = encoder d.image d.target :=
  ⟨rfl, rfl, rfl, rfl, rfl⟩

/-- Claim C10: `mark_evalated` is not atomic on error — when the id list
is `pre ++ bad :: rest` with every id of `pre` present and `bad` absent,
the call fails, and at the moment of failure the `evaluated` field of
every image named by `pre` has already been set to `net_id`, with no
rollback. -/
theorem C10_mark_evalated_partial_mutation (m : ImageMap)
    (pre rest : List String) (bad : String) (nid : ℤ)
    (hpre : ∀ k ∈ pre, hasKey m k = true) (hbad : hasKey m bad = false) :
    exceptOk (mark_evalated m (pre ++ bad :: rest) nid).2 = false ∧
      ∀ k ∈ pre, ∃ im,
        lookupImage (mark_evalated m (pre ++ bad :: rest) nid).1 k = some im ∧
        im.evaluated = some nid :=
  mark_evalated_partial_aux pre m rest bad nid hpre hbad

/-- Witness for C10: failing on `["A", "B"]` with `"B"` absent leaves
`"A"` already marked with net id 7. -/
theorem C10_mark_evalated_partial_mutation_witness :
    (∀ k ∈ ["A"],
      hasKey ([("A", ⟨"train", none⟩), ("C", ⟨"test", none⟩)] : ImageMap) k = true) ∧
    hasKey ([("A", ⟨"train", none⟩), ("C", ⟨"test", none⟩)] : ImageMap) "B" = false ∧
    (exceptOk
        (mark_evalated ([("A", ⟨"train", none⟩), ("C", ⟨"test", none⟩)] : ImageMap)
          (["A"] ++ "B" :: []) 7).2 = false ∧
      ∀ k ∈ ["A"], ∃ im,
        lookupImage
            (mark_evalated
              ([("A", ⟨"train", none⟩), ("C", ⟨"test", none⟩)] : ImageMap)
              (["A"] ++ "B" :: []) 7).1 k = some im ∧
          im.evaluated = some 7) :=
  ⟨by decide, by decide,
    C10_mark_evalated_partial_mutation
      ([("A", ⟨"train", none⟩), ("C", ⟨"test", none⟩)] : ImageMap)
      ["A"] [] "B" 7 (by decide) (by decide)⟩

end SealsDetection
